import Mathlib

/-!
Verification model of `src/cmd/list.go` of rcrozean/kube-stress: the
rate-limited list-request dispatcher (`listObjects`), the per-request worker
(`listOnce`), the signal-handling cancellation setup in `listCommand`, and the
final summary report.  Machine integers are modelled as `Nat`/`Int` (no value
in this program approaches an overflow boundary), the float32 qps as an exact
rational, and goroutine scheduling as explicit event sequences.
-/

namespace KubeStress

/-! ### Tick interval (list.go line 116)

`time.NewTicker(time.Duration(1000000000.0/listConfig.qps) * time.Nanosecond)`:
`qps` is a float32; Go truncates the quotient toward zero when converting it to
the int64-backed `time.Duration`.  We model qps exactly as a rational; float32
rounding never changes the sign of the quotient, which is all any claim below
uses.  For qps = 0 the Go quotient is +Inf and the float-to-int64 conversion
yields the minimal int64 (gc on amd64). -/

/-- Truncation toward zero of a rational, as in a Go float-to-integer
conversion. -/
def goTruncQ (q : ℚ) : Int :=
  q.num.sign * ((q.num.natAbs / q.den : Nat) : Int)

/-- Nanosecond tick interval the dispatcher derives from the configured qps
(list.go line 116).  `time.NewTicker` panics unless this is positive. -/
def tickIntervalNs (qps : ℚ) : Int :=
  if qps = 0 then -9223372036854775808
  else goTruncQ (1000000000 / qps)

/-! ### The dispatch loop (list.go lines 128-143) -/

/-- Scheduling of external cancellation: `some c` means the shared context is
observed done from loop iteration `c` onward (the `ctx.Done()` arm of the
select is ready there); `none` means the context never becomes done during the
run. -/
def cancelObserved : Option Nat → Nat → Bool
  | none, _ => false
  | some c, i => c ≤ i

/-- Result of the dispatch loop: either the Go panic of `i % 0` (evaluating
`clients[i%len(clients)]` with an empty pool), or a loop exit.  `launched`
lists, in order, one pair `(i, i % numClients)` per launched worker goroutine:
the tick index and the index of the borrowed client.  `byCancel` tells whether
the exit was the `return` in the `ctx.Done()` select arm (list.go line 132)
rather than the loop condition turning false. -/
inductive LoopResult where
  | panicked (launched : List (Nat × Nat))
  | exited (launched : List (Nat × Nat)) (byCancel : Bool)
deriving DecidableEq

/-- The dispatch loop of `listObjects` (list.go lines 128-143), from iteration
`i`.  Timing model: the loop condition `time.Since(start) < totalDuration` of
iteration `i` is evaluated at the instant the tick that ended the previous
iteration fired, i.e. at time `i * I` for tick interval `I`; the next tick
then fires at `(i+1) * I`, and cancellation is checked when the select wakes.
`fuel` bounds the recursion; the wrapper passes `D / I + 1`, which the lemma
`loopFrom_none` below shows is always enough for the loop to reach its real
exit. -/
def loopFrom (I D n : Nat) (cancelAt : Option Nat) : Nat → Nat → LoopResult
  | _, 0 => .exited [] false
  | i, fuel+1 =>
    if i * I < D then
      if cancelObserved cancelAt i then .exited [] true
      else if n = 0 then .panicked []
      else
        match loopFrom I D n cancelAt (i+1) fuel with
        | .panicked l => .panicked ((i, i % n) :: l)
        | .exited l b => .exited ((i, i % n) :: l) b
    else .exited [] false

/-- Outcome of one `listObjects` run. -/
inductive ListRun where
  /-- `time.NewTicker` panicked: the computed interval is not positive.  The
  summary defer (list.go lines 121-125) is registered after the ticker is
  built, so no summary is emitted. -/
  | tickerPanic
  /-- `clients[i%len(clients)]` panicked at the first tick (empty client
  pool).  The already-registered summary defer runs during unwinding. -/
  | modPanic (launched : List (Nat × Nat))
  /-- The loop exited.  `waitedForWorkers` records whether `wg.Wait()` (list.go
  line 146) ran before the deferred summary; the bare `return` in the
  `ctx.Done()` select arm (line 132) skips it. -/
  | completed (launched : List (Nat × Nat)) (exitedByCancel : Bool)
      (waitedForWorkers : Bool)
deriving DecidableEq

/-- `listObjects` (list.go lines 114-147) over the timing model of `loopFrom`.
The client pool is abstracted by its length `numClients`
(`len(clients)`); each launched worker records which pool index it borrowed. -/
def listObjects (qps : ℚ) (durationNs numClients : Nat) (cancelAt : Option Nat) :
    ListRun :=
  if tickIntervalNs qps ≤ 0 then .tickerPanic
  else
    match loopFrom (tickIntervalNs qps).toNat durationNs numClients cancelAt 0
        (durationNs / (tickIntervalNs qps).toNat + 1) with
    | .panicked l => .modPanic l
    | .exited l true => .completed l true false
    | .exited l false => .completed l false true

/-- The launched-worker list of a run. -/
def ListRun.launched : ListRun → List (Nat × Nat)
  | .tickerPanic => []
  | .modPanic l => l
  | .completed l _ _ => l

/-! ### The summary report (list.go lines 119-125) -/

/-- IEEE classification of the Go float64 failure-rate value.  Only the
classification is claim-relevant; the finite case carries the exact rational
value (float64 rounding of these small integer ratios is not observable by any
claim below). -/
inductive GoFloat where
  | nan
  | posInf
  | finite (q : ℚ)
deriving DecidableEq

/-- The expression `float64(fc)/float64(tc)*100` logged at list.go line 124.
Go float64 division never panics: 0/0 is NaN and fc/0 with fc > 0 is +Inf,
and multiplying either by 100 preserves the class. -/
def failureRatePercent (failed total : Nat) : GoFloat :=
  if total = 0 then
    if failed = 0 then .nan else .posInf
  else .finite ((failed : ℚ) / (total : ℚ) * 100)

/-- A report line: the two counters read by the deferred function, and the
failure-rate value it logs. -/
structure Summary where
  total : Nat
  failed : Nat
  rate : GoFloat
deriving DecidableEq

/-- Counter values read by the deferred report (list.go lines 121-125), in the
runs where they are determined by the launch list.  After `wg.Wait()` every
launched worker has completed `listOnce`, so `totalCount` equals the number of
launched workers and `failedCount` counts those whose request failed
(`outcome i = false` for the worker of tick `i`).  In the `modPanic` case the
panic happened at the very first launch attempt, so both counters are still 0
when the defer runs during unwinding.  When the loop exits by cancellation,
`wg.Wait()` is skipped and the counters are read while workers may still be
mutating them: no determined value exists, hence `none`. -/
def summaryOfRun (outcome : Nat → Bool) : ListRun → Option Summary
  | .completed l _ true =>
      some ⟨l.length, (l.filter fun p => !(outcome p.1)).length,
        failureRatePercent (l.filter fun p => !(outcome p.1)).length l.length⟩
  | .modPanic [] => some ⟨0, 0, failureRatePercent 0 0⟩
  | _ => none

/-- Whether the deferred summary report runs at all: it is skipped only when
`time.NewTicker` panics before the defer is registered; every loop exit and
the first-tick panic reach it (Go defers run during panic unwinding). -/
def summaryEmitted : ListRun → Bool
  | .tickerPanic => false
  | _ => true

/-- Number of loop iterations whose duration check passes when nothing cancels
the run: the count of `i` with `i * I < D`, i.e. the ceiling of `D / I`.  Each
such iteration waits for the next tick and launches one worker. -/
def NLaunch (I D : Nat) : Nat := (D + I - 1) / I

/-! ### Signal handling and one-shot cancellation (list.go lines 85-101) -/

/-- One observation made by the signal-listening goroutine's select: a
delivered termination signal (SIGTERM/SIGINT on the `sigs` channel), or the
shared context being done. -/
inductive SigEvent where
  | signal
  | ctxDone
deriving DecidableEq, BEq

/-- State of the `sync.Once` guarding `cancel`, together with the number of
times the `cancel` function has actually run. -/
structure OnceState where
  onceDone : Bool
  cancelCount : Nat
deriving DecidableEq

/-- `once.Do(cancel)`: runs `cancel` if and only if no `Do` on this `once` has
run it before. -/
def onceDo (s : OnceState) : OnceState :=
  if s.onceDone then s else { onceDone := true, cancelCount := s.cancelCount + 1 }

/-- The signal-listening goroutine (list.go lines 92-101): each loop iteration
observes one event; on a signal it runs `once.Do(cancel)` and loops, on
`ctx.Done()` it returns.  The argument lists the observations the select makes
in order (any interleaving of signal deliveries and the context becoming
done); the returned Bool records whether the loop has returned. -/
def sigLoop : List SigEvent → OnceState → OnceState × Bool
  | [], s => (s, false)
  | .signal :: rest, s => sigLoop rest (onceDo s)
  | .ctxDone :: _, s => (s, true)

/-! ### The request worker `listOnce` (list.go lines 149-179) -/

/-- The two shared atomic counters (`totalCount`, `failedCount`). -/
structure Counters where
  total : Nat
  failed : Nat
deriving DecidableEq

/-- Observable actions of one `listOnce` call, in program order.  Everything
in a call's trace happens before the call returns. -/
inductive WorkerAction where
  /-- `totalCount.Add(1)` (line 152) -/
  | incTotal
  /-- the single `...Stream(requestCtx)` request (lines 155-159) -/
  | issueRequest
  /-- `io.Copy(ioutil.Discard, rc)` consuming the whole payload (line 163) -/
  | drainResponse
  /-- `rc.Close()` (line 164) -/
  | closeResponse
  /-- `failedCount.Add(1)` (line 169) -/
  | incFailed
  /-- `csvWriter.Write(...)` with the measured latency (line 175) -/
  | writeCsv (latencyNs : Nat)
deriving DecidableEq

/-- The environment one `listOnce` call runs in: what the single
`client.CoreV1().RESTClient()...Stream(requestCtx)` call yields and costs, and
whether a CSV writer is configured.  `errPresent` covers every failure kind
the request context can surface: transport error, the 60s timeout, or
cancellation of the ambient context. -/
structure ListOnceEnv where
  /-- the returned `io.ReadCloser` is non-nil -/
  rcPresent : Bool
  /-- the returned error is non-nil -/
  errPresent : Bool
  /-- wall-clock nanoseconds from just before the call until `Stream` returns -/
  requestDurNs : Nat
  /-- wall-clock nanoseconds the drain of the payload takes -/
  drainDurNs : Nat
  /-- `csvWriter != nil` -/
  csvConfigured : Bool

/-- `listOnce` (list.go lines 149-179): the updated counters, the ordered trace
of observable actions, and whether a non-nil Go error is returned.  `start`
is taken just before the request is issued (line 154) and the latency is
`time.Since(start)` evaluated after the drain-and-close block (line 173), so
on the success path it spans the request plus the full consumption of the
payload. -/
def listOnce (env : ListOnceEnv) (c : Counters) : Counters × List WorkerAction × Bool :=
  let afterTotal : Counters := { c with total := c.total + 1 }
  let drainActs : List WorkerAction :=
    if env.rcPresent then [.drainResponse, .closeResponse] else []
  if env.errPresent then
    ({ afterTotal with failed := afterTotal.failed + 1 },
     [.incTotal, .issueRequest] ++ drainActs ++ [.incFailed], true)
  else
    (afterTotal,
     [.incTotal, .issueRequest] ++ drainActs ++
       (if env.csvConfigured then
          [.writeCsv (env.requestDurNs + (if env.rcPresent then env.drainDurNs else 0))]
        else []),
     false)

/-- Latency values forwarded to the CSV writer by a trace, in order. -/
def csvWrites (acts : List WorkerAction) : List Nat :=
  acts.filterMap fun a =>
    match a with
    | .writeCsv l => some l
    | _ => none

/-- Number of requests a trace issues. -/
def requestsIssued (acts : List WorkerAction) : Nat :=
  acts.countP fun a =>
    match a with
    | .issueRequest => true
    | _ => false

/-- Number of `totalCount.Add(1)` actions in a trace. -/
def totalIncs (acts : List WorkerAction) : Nat :=
  acts.countP fun a =>
    match a with
    | .incTotal => true
    | _ => false

/-- Number of `failedCount.Add(1)` actions in a trace. -/
def failedIncs (acts : List WorkerAction) : Nat :=
  acts.countP fun a =>
    match a with
    | .incFailed => true
    | _ => false

/-- Number of payload drains in a trace. -/
def drains (acts : List WorkerAction) : Nat :=
  acts.countP fun a =>
    match a with
    | .drainResponse => true
    | _ => false

/-- Number of `rc.Close()` calls in a trace. -/
def closes (acts : List WorkerAction) : Nat :=
  acts.countP fun a =>
    match a with
    | .closeResponse => true
    | _ => false

/-! ### Interleaved counter updates (list.go lines 119-120, 152, 169)

The two counters are mutated only by atomic increments from concurrently
running `listOnce` calls.  A run of the counters is any interleaving of the
workers' increments; `counterStep` admits exactly the per-worker discipline
`listOnce` follows (one `total` increment, then at most one `failed`
increment — lemma `listOnce_counterEvents`). -/

/-- One atomic counter increment, labelled with the worker goroutine that
performs it. -/
inductive CounterEvent where
  | incTotal (w : Nat)
  | incFailed (w : Nat)
deriving DecidableEq

/-- Which workers have performed their `total` increment, and which their
`failed` increment. -/
structure CounterTraceState where
  started : List Nat
  failed : List Nat
deriving DecidableEq

/-- Admissibility of one increment: a worker increments `total` at most once,
and `failed` at most once and only after its `total` increment. -/
def counterStep (s : CounterTraceState) : CounterEvent → Option CounterTraceState
  | .incTotal w =>
      if w ∈ s.started then none else some { s with started := w :: s.started }
  | .incFailed w =>
      if w ∈ s.started ∧ w ∉ s.failed then some { s with failed := w :: s.failed }
      else none

/-- Run an interleaved increment sequence from a given state. -/
def runCounterTraceFrom (s : CounterTraceState) :
    List CounterEvent → Option CounterTraceState
  | [] => some s
  | e :: rest =>
    match counterStep s e with
    | none => none
    | some s2 => runCounterTraceFrom s2 rest

/-- Run an interleaved increment sequence from the zeroed counters (the state
right after `var totalCount, failedCount atomic.Uint64` at lines 119-120). -/
def runCounterTrace (tr : List CounterEvent) : Option CounterTraceState :=
  runCounterTraceFrom ⟨[], []⟩ tr

/-- The counter increments of one `listOnce` trace, labelled with the worker
id `w` of the goroutine running it. -/
def counterEventsOf (w : Nat) (acts : List WorkerAction) : List CounterEvent :=
  acts.filterMap fun a =>
    match a with
    | .incTotal => some (.incTotal w)
    | .incFailed => some (.incFailed w)
    | _ => none

/-! ### `listCommand` and the cobra Run closure (list.go lines 57-69, 81-112) -/

/-- `listCommand` (list.go lines 81-112): it creates the clients, installs the
signal handler, logs, calls `listObjects`, and ends in its single statement
`return nil`.  It performs no validation of qps or numClients.  The value is
`some r` when the function returns, with `r` the Go error value it returns
(always nil, i.e. `none`); it is `none` when `listObjects` panics, since then
`listCommand` never returns normally. -/
def listCommandReturn (qps : ℚ) (durationNs numClients : Nat)
    (cancelAt : Option Nat) : Option (Option String) :=
  match listObjects qps durationNs numClients cancelAt with
  | .tickerPanic => none
  | .modPanic _ => none
  | .completed _ _ _ => some none

/-- The error branch of the `list` command's Run closure (list.go lines 64-67):
`if err := listCommand(); err != nil` logs the error and calls `os.Exit(1)`.
The result is the exit status the branch forces, `none` when the branch is not
taken. -/
def listCmdRunExit : Option String → Option Nat
  | some _ => some 1
  | none => none

/-- Invariant of the guarded cancel: the cancel function has run at most once,
and not at all while the `sync.Once` is still unfired. -/
def onceInv (s : OnceState) : Prop :=
  s.cancelCount ≤ if s.onceDone then 1 else 0

/-- Invariant of interleaved counter runs: the workers that incremented
`failed` are among those that incremented `total`, each at most once. -/
def ctsInv (s : CounterTraceState) : Prop :=
  s.failed ⊆ s.started ∧ s.started.Nodup ∧ s.failed.Nodup

/-! ## Lemmas: concrete tick intervals -/

/-- Concrete evaluation helper: a configured qps of 1 request/second gives a
tick interval of one second. -/
theorem tickIntervalNs_one : tickIntervalNs 1 = 1000000000 := by
  have h : (1000000000 : ℚ) / 1 = 1000000000 := by norm_num
  rw [tickIntervalNs, if_neg (by norm_num), goTruncQ, h]
  norm_num
  exact Int.sign_eq_one_of_pos (by norm_num)

/-- Concrete evaluation helper: a configured qps of 2 requests/second gives a
tick interval of half a second. -/
theorem tickIntervalNs_two : tickIntervalNs 2 = 500000000 := by
  have h : (1000000000 : ℚ) / 2 = 500000000 := by norm_num
  rw [tickIntervalNs, if_neg (by norm_num), goTruncQ, h]
  norm_num
  exact Int.sign_eq_one_of_pos (by norm_num)

/-! ## Lemmas: the dispatch loop -/

/-- The duration check of iteration `i` passes exactly when `i` is below the
ceiling of `D / I`. -/
theorem lt_NLaunch_iff (I D i : Nat) (hI : 0 < I) :
    i < NLaunch I D ↔ i * I < D := by
  unfold NLaunch
  cases D with
  | zero =>
    have h : (0 + I - 1) / I = 0 := Nat.div_eq_of_lt (by omega)
    rw [h]
    omega
  | succ d =>
    have h : d + 1 + I - 1 = d + I := by omega
    rw [h, Nat.lt_iff_add_one_le, Nat.le_div_iff_mul_le hI, Nat.succ_mul]
    omega

/-- With no cancellation, enough fuel and a non-empty pool, the loop from
iteration `i` launches exactly the workers of the remaining passing iterations
and exits by its duration condition. -/
theorem loopFrom_none (I D n : Nat) (hI : 0 < I) (hn : n ≠ 0) :
    ∀ fuel i, D ≤ (i + fuel) * I →
      loopFrom I D n none i fuel =
        .exited ((List.range' i (NLaunch I D - i)).map fun t => (t, t % n)) false := by
  intro fuel
  induction fuel with
  | zero =>
    intro i hD
    have hD' : D ≤ i * I := by simpa using hD
    have h1 : ¬ i < NLaunch I D := by
      rw [lt_NLaunch_iff I D i hI]
      omega
    have h2 : NLaunch I D - i = 0 := by omega
    rw [h2]
    rfl
  | succ fuel ih =>
    intro i hD
    by_cases h : i * I < D
    · have hi : i < NLaunch I D := (lt_NLaunch_iff I D i hI).2 h
      have hD' : D ≤ (i + 1 + fuel) * I := by
        have he : i + 1 + fuel = i + (fuel + 1) := by omega
        rw [he]
        exact hD
      have hrec := ih (i + 1) hD'
      have hcnt : NLaunch I D - i = (NLaunch I D - (i + 1)) + 1 := by omega
      rw [loopFrom, if_pos h]
      have hco : cancelObserved none i = false := rfl
      rw [hco, if_neg (by simp), if_neg hn, hrec, hcnt, List.range'_succ,
        List.map_cons]
    · rw [loopFrom, if_neg h]
      have h1 : ¬ i < NLaunch I D := by
        rw [lt_NLaunch_iff I D i hI]
        omega
      have h2 : NLaunch I D - i = 0 := by omega
      rw [h2]
      rfl

/-- With a non-empty pool the loop never panics: whatever the cancellation
schedule, it exits having launched the workers of an initial run of
consecutive iterations, each holding the client of its tick index modulo the
pool length. -/
theorem loopFrom_shape (I D n : Nat) (c : Option Nat) (hn : n ≠ 0) :
    ∀ fuel i, ∃ m b, loopFrom I D n c i fuel =
      .exited ((List.range' i m).map fun t => (t, t % n)) b := by
  intro fuel
  induction fuel with
  | zero => exact fun i => ⟨0, false, rfl⟩
  | succ fuel ih =>
    intro i
    by_cases h : i * I < D
    · by_cases hc : cancelObserved c i = true
      · exact ⟨0, true, by rw [loopFrom, if_pos h, if_pos hc]; rfl⟩
      · obtain ⟨m, b, hm⟩ := ih (i + 1)
        refine ⟨m + 1, b, ?_⟩
        rw [loopFrom, if_pos h, if_neg hc, if_neg hn, hm, List.range'_succ,
          List.map_cons]
    · exact ⟨0, false, by rw [loopFrom, if_neg h]; rfl⟩

/-- The fuel `listObjects` hands to the loop is always sufficient: the run with
no cancellation launches exactly `NLaunch I D` workers, exits by duration, and
reaches `wg.Wait()`. -/
theorem listObjects_none (qps : ℚ) (D n : Nat)
    (hI : 0 < tickIntervalNs qps) (hn : n ≠ 0) :
    listObjects qps D n none =
      .completed ((List.range (NLaunch (tickIntervalNs qps).toNat D)).map
        fun t => (t, t % n)) false true := by
  have hI' : 0 < (tickIntervalNs qps).toNat := by omega
  have hfuel : D ≤ (0 + (D / (tickIntervalNs qps).toNat + 1)) *
      (tickIntervalNs qps).toNat := by
    have h1 := Nat.div_add_mod D (tickIntervalNs qps).toNat
    have h2 := Nat.mod_lt D hI'
    have h3 : (0 + (D / (tickIntervalNs qps).toNat + 1)) *
        (tickIntervalNs qps).toNat =
        (tickIntervalNs qps).toNat * (D / (tickIntervalNs qps).toNat) +
          (tickIntervalNs qps).toNat := by ring
    rw [h3]
    omega
  rw [listObjects, if_neg (by omega),
    loopFrom_none (tickIntervalNs qps).toNat D n hI' hn _ 0 hfuel,
    Nat.sub_zero, List.range_eq_range']

/-- Any `listObjects` run over a non-empty pool completes without panicking,
launching a prefix of the tick sequence. -/
theorem listObjects_shape (qps : ℚ) (D n : Nat) (c : Option Nat)
    (hI : 0 < tickIntervalNs qps) (hn : n ≠ 0) :
    ∃ m b w, listObjects qps D n c =
      .completed ((List.range' 0 m).map fun t => (t, t % n)) b w := by
  obtain ⟨m, b, hm⟩ :=
    loopFrom_shape (tickIntervalNs qps).toNat D n c hn
      (D / (tickIntervalNs qps).toNat + 1) 0
  cases b with
  | false =>
    exact ⟨m, false, true, by rw [listObjects, if_neg (by omega), hm]⟩
  | true =>
    exact ⟨m, true, false, by rw [listObjects, if_neg (by omega), hm]⟩

/-! ## Claim C1 -/

/-- Counterexample to claim C1 as stated.  In this run (qps 2, duration 2s,
pool of 2, context cancelled at iteration 1) one worker has been launched when
the `ctx.Done()` arm fires; the loop exits via its bare `return`, so
`wg.Wait()` never runs (`waitedForWorkers = false`), yet the deferred summary
still executes: the summary is not behind the join barrier on the cancellation
path. -/
theorem cancel_exit_skips_join_cex :
    listObjects 2 2000000000 2 (some 1) = .completed [(0, 0)] true false ∧
    summaryEmitted (listObjects 2 2000000000 2 (some 1)) = true := by
  constructor <;> (rw [listObjects, tickIntervalNs_two]; decide)

/-- Claim C1 (amended): the dispatcher reaches the `wg.Wait()` join barrier
before the deferred summary exactly when the tick loop exits because the total
duration elapsed; when the loop exits because the context was cancelled, the
bare `return` in the `ctx.Done()` select arm skips the barrier and the
deferred summary runs with launched workers possibly still outstanding. -/
theorem join_only_on_duration_exit (qps : ℚ) (D n : Nat) (c : Option Nat)
    (l : List (Nat × Nat)) (b w : Bool)
    (h : listObjects qps D n c = .completed l b w) : w = !b := by
  rw [listObjects] at h
  split at h
  · exact absurd h (by simp)
  · split at h
    · exact absurd h (by simp)
    · injection h with h1 h2 h3
      subst h2; subst h3
      rfl
    · injection h with h1 h2 h3
      subst h2; subst h3
      rfl

/-- Witness for claim C1 (amended): a concrete cancelled run whose
`waitedForWorkers` flag is the negation of its `exitedByCancel` flag. -/
theorem join_only_on_duration_exit_witness :
    listObjects 2 2000000000 1 (some 1) = .completed [(0, 0)] true false ∧
    (false : Bool) = !true :=
  ⟨by rw [listObjects, tickIntervalNs_two]; decide,
   join_only_on_duration_exit 2 2000000000 1 (some 1) [(0, 0)] true false
     (by rw [listObjects, tickIntervalNs_two]; decide)⟩

/-! ## Claim C2 -/

/-- Counterexample to claim C2 as stated: rate 1/s (tick interval 1s) and
duration 100ms.  The duration is strictly shorter than one tick interval and
nothing cancels the run, yet one worker is launched (the loop condition passes
at elapsed 0, the select then blocks until the first tick fires at 1s) and the
summary reports total = 1, not 0. -/
theorem short_duration_zero_workers_cex :
    (100000000 : Int) < tickIntervalNs 1 ∧
    listObjects 1 100000000 2 none = .completed [(0, 0)] false true ∧
    (summaryOfRun (fun _ => true) (listObjects 1 100000000 2 none)).map
      Summary.total = some 1 := by
  refine ⟨by rw [tickIntervalNs_one]; decide, ?_, ?_⟩ <;>
    (rw [listObjects, tickIntervalNs_one]; decide)

/-- Claim C2 (amended): for every configuration whose positive total duration
is strictly shorter than one tick interval, with a non-empty pool and no
cancellation, the dispatcher launches exactly one worker — at the first tick,
which fires only after the duration has already elapsed — and the final
summary reports total = 1 (with failed determined by that single request's
outcome).  Zero workers would require a non-positive duration. -/
theorem short_duration_launches_one (qps : ℚ) (D n : Nat)
    (hI : 0 < tickIntervalNs qps) (hD : 0 < D)
    (hDI : (D : Int) < tickIntervalNs qps) (hn : 0 < n) :
    listObjects qps D n none = .completed [(0, 0)] false true ∧
    ∀ outcome : Nat → Bool,
      (summaryOfRun outcome (listObjects qps D n none)).map Summary.total =
        some 1 := by
  have hn' : n ≠ 0 := by omega
  have key := listObjects_none qps D n hI hn'
  have hNL : NLaunch (tickIntervalNs qps).toNat D = 1 := by
    unfold NLaunch
    have hI' : 0 < (tickIntervalNs qps).toNat := by omega
    have hDle : D ≤ (tickIntervalNs qps).toNat := by omega
    exact Nat.div_eq_of_lt_le (by omega) (by omega)
  rw [hNL] at key
  have hr : (List.range 1).map (fun t => (t, t % n)) = [(0, 0)] := by
    have h1 : List.range 1 = [0] := by decide
    rw [h1, List.map_cons, List.map_nil, Nat.zero_mod]
  rw [hr] at key
  refine ⟨key, fun outcome => ?_⟩
  rw [key]
  rfl

/-- Witness for claim C2 (amended): rate 1/s, duration 100ms, pool of 5 — one
worker, summary total 1. -/
theorem short_duration_launches_one_witness :
    listObjects 1 100000000 5 none = .completed [(0, 0)] false true ∧
    (summaryOfRun (fun _ => true) (listObjects 1 100000000 5 none)).map
      Summary.total = some 1 := by
  have h := short_duration_launches_one 1 100000000 5
    (by rw [tickIntervalNs_one]; decide) (by decide)
    (by rw [tickIntervalNs_one]; decide) (by decide)
  exact ⟨h.1, h.2 (fun _ => true)⟩

/-! ## Claim C3 -/

/-- Counterexample to claim C3 as stated: with a valid rate (qps 1) and an
empty client pool, the run is not stopped at startup by a configuration
error — `listCommand` performs no validation — instead it proceeds into the
dispatch loop and panics evaluating `clients[i%len(clients)]` at the first
tick, mid-run, and the deferred summary is emitted during panic unwinding. -/
theorem no_startup_validation_cex :
    listObjects 1 1000000000 0 none = .modPanic [] ∧
    summaryEmitted (listObjects 1 1000000000 0 none) = true := by
  constructor <;> (rw [listObjects, tickIntervalNs_one]; decide)

/-- Claim C3 (amended): the configuration is not validated at startup.  A
non-positive qps yields a non-positive tick interval, so the run panics
constructing `time.NewTicker` — before any worker is launched and before the
summary defer is registered.  An empty client pool is not rejected either:
with a positive interval and duration the run enters the loop and panics at
the first tick (`i % 0`), after the run has started, and the deferred summary
is emitted during unwinding.  Neither case is a clean startup configuration
error. -/
theorem invalid_config_panics (qps : ℚ) (D n : Nat) (c : Option Nat) :
    (qps ≤ 0 → tickIntervalNs qps ≤ 0) ∧
    (tickIntervalNs qps ≤ 0 →
      listObjects qps D n c = .tickerPanic ∧
      summaryEmitted (listObjects qps D n c) = false) ∧
    (0 < tickIntervalNs qps → n = 0 → 0 < D →
      listObjects qps D n none = .modPanic [] ∧
      summaryEmitted (listObjects qps D n none) = true) := by
  refine ⟨?_, ?_, ?_⟩
  · intro hq
    rw [tickIntervalNs]
    rcases lt_or_eq_of_le hq with hneg | h0
    · rw [if_neg (ne_of_lt hneg)]
      unfold goTruncQ
      have hqq : (1000000000 : ℚ) / qps < 0 :=
        div_neg_of_pos_of_neg (by norm_num) hneg
      have hnum : ((1000000000 : ℚ) / qps).num < 0 := Rat.num_neg.2 hqq
      rw [Int.sign_eq_neg_one_of_neg hnum]
      have hcast : (0 : Int) ≤ ((((1000000000 : ℚ) / qps).num.natAbs /
          ((1000000000 : ℚ) / qps).den : Nat) : Int) := Int.natCast_nonneg _
      omega
    · rw [if_pos h0]
      decide
  · intro hI
    have hrun : listObjects qps D n c = .tickerPanic := by
      rw [listObjects, if_pos hI]
    exact ⟨hrun, by rw [hrun]; rfl⟩
  · intro hI hn hD
    subst hn
    have hrun : listObjects qps D 0 none = .modPanic [] := by
      rw [listObjects, if_neg (by omega), loopFrom,
        if_pos (by simpa using hD : 0 * (tickIntervalNs qps).toNat < D)]
      rfl
    exact ⟨hrun, by rw [hrun]; rfl⟩

/-- Witness for claim C3 (amended): qps 2, duration 1s, empty pool — the run
panics at the first tick and the summary defer still runs. -/
theorem invalid_config_panics_witness :
    listObjects 2 1000000000 0 none = .modPanic [] ∧
    summaryEmitted (listObjects 2 1000000000 0 none) = true :=
  (invalid_config_panics 2 1000000000 0 none).2.2
    (by rw [tickIntervalNs_two]; decide) rfl (by decide)

/-! ## Claim C4 -/

/-- Claim C4: when the summary's total count is zero, the failed count is zero
too and the reported failure rate is the IEEE NaN that the unguarded float64
division 0/0 produces — the expression does not crash (Go float64 division
cannot panic) and does not silently print 0%. -/
theorem zero_total_reports_nan (outcome : Nat → Bool) (qps : ℚ) (D n : Nat)
    (c : Option Nat) (s : Summary)
    (h : summaryOfRun outcome (listObjects qps D n c) = some s)
    (h0 : s.total = 0) :
    s.failed = 0 ∧ s.rate = GoFloat.nan := by
  cases hrun : listObjects qps D n c with
  | tickerPanic =>
    rw [hrun] at h
    exact Option.noConfusion h
  | modPanic l =>
    rw [hrun] at h
    cases l with
    | nil =>
      injection h with h'
      subst h'
      exact ⟨rfl, rfl⟩
    | cons a t => exact Option.noConfusion h
  | completed l b w =>
    rw [hrun] at h
    cases w with
    | false => exact Option.noConfusion h
    | true =>
      injection h with h'
      subst h'
      have h0' : l.length = 0 := h0
      have hl : l = [] := List.length_eq_zero.1 h0'
      subst hl
      exact ⟨rfl, rfl⟩

/-- Witness for claim C4: the zero-duration run launches nothing and its
summary is total 0, failed 0, rate NaN. -/
theorem zero_total_reports_nan_witness :
    summaryOfRun (fun _ => true) (listObjects 1 0 1 none) =
      some ⟨0, 0, GoFloat.nan⟩ ∧
    ((0 : Nat) = 0 ∧ GoFloat.nan = GoFloat.nan) := by
  have h : summaryOfRun (fun _ => true) (listObjects 1 0 1 none) =
      some ⟨0, 0, GoFloat.nan⟩ := by
    rw [listObjects, tickIntervalNs_one]; decide
  exact ⟨h, zero_total_reports_nan (fun _ => true) 1 0 1 none
    ⟨0, 0, GoFloat.nan⟩ h rfl⟩

/-! ## Claim C5 -/

/-- Claim C5: every `listOnce` invocation increments `total` exactly once, as
its first action and before the request is issued; it issues exactly one
request; on any error outcome it increments `failed` exactly once and returns
the error (no retry); on success `failed` is untouched. -/
theorem listOnce_counter_discipline (env : ListOnceEnv) (c : Counters) :
    (listOnce env c).1.total = c.total + 1 ∧
    (listOnce env c).1.failed = c.failed + (if env.errPresent then 1 else 0) ∧
    (listOnce env c).2.1.take 2 = [.incTotal, .issueRequest] ∧
    totalIncs (listOnce env c).2.1 = 1 ∧
    requestsIssued (listOnce env c).2.1 = 1 ∧
    failedIncs (listOnce env c).2.1 = (if env.errPresent then 1 else 0) ∧
    (listOnce env c).2.2 = env.errPresent := by
  obtain ⟨rc, err, rq, dr, csv⟩ := env
  cases rc <;> cases err <;> cases csv <;>
    exact ⟨rfl, rfl, rfl, rfl, rfl, rfl, rfl⟩

/-! ## Claim C6 -/

/-- The `sync.Once` guard preserves the at-most-once invariant. -/
theorem onceDo_inv {s : OnceState} (h : onceInv s) : onceInv (onceDo s) := by
  unfold onceInv at h ⊢
  unfold onceDo
  by_cases hd : s.onceDone = true
  · rw [if_pos hd]
    exact h
  · rw [if_neg hd]
    rw [Bool.not_eq_true] at hd
    rw [hd] at h
    simp at h ⊢
    omega

/-- The signal loop preserves the at-most-once invariant whatever it
observes. -/
theorem sigLoop_inv (evs : List SigEvent) :
    ∀ s : OnceState, onceInv s → onceInv (sigLoop evs s).1 := by
  induction evs with
  | nil => exact fun s h => h
  | cons e rest ih =>
    intro s h
    cases e with
    | signal => exact ih (onceDo s) (onceDo_inv h)
    | ctxDone => exact h

/-- The signal loop returns exactly when it observes the context done, and
stops processing there. -/
theorem sigLoop_returns (evs : List SigEvent) :
    ∀ s : OnceState, (sigLoop evs s).2 = evs.contains .ctxDone := by
  induction evs with
  | nil => intro s; rfl
  | cons e rest ih =>
    intro s
    cases e with
    | signal =>
      have hb : (SigEvent.ctxDone == SigEvent.signal) = false := rfl
      calc (sigLoop (.signal :: rest) s).2
          = (sigLoop rest (onceDo s)).2 := rfl
        _ = rest.contains .ctxDone := ih (onceDo s)
        _ = (SigEvent.signal :: rest).contains .ctxDone := by
              rw [List.contains_cons, hb, Bool.false_or]
    | ctxDone =>
      have hb : (SigEvent.ctxDone == SigEvent.ctxDone) = true := rfl
      calc (sigLoop (.ctxDone :: rest) s).2 = true := rfl
        _ = (SigEvent.ctxDone :: rest).contains .ctxDone := by
              rw [List.contains_cons, hb, Bool.true_or]

/-- Claim C6: for every interleaving of termination-signal deliveries and the
context becoming done — repeated signals in immediate succession included —
the `sync.Once` guard lets the `cancel` function run at most once in total
(the goroutine's `once.Do(cancel)` and the deferred `once.Do(cancel)` of
`listCommand` combined), and the signal-listening loop returns exactly when it
observes the context done. -/
theorem signal_cancel_at_most_once (evs : List SigEvent) :
    (onceDo (sigLoop evs ⟨false, 0⟩).1).cancelCount ≤ 1 ∧
    (sigLoop evs ⟨false, 0⟩).2 = evs.contains .ctxDone := by
  constructor
  · have h0 : onceInv ⟨false, 0⟩ := by simp [onceInv]
    have h1 := onceDo_inv (sigLoop_inv evs ⟨false, 0⟩ h0)
    unfold onceInv at h1
    by_cases hd : (onceDo (sigLoop evs ⟨false, 0⟩).1).onceDone = true
    · rw [if_pos hd] at h1
      exact h1
    · rw [if_neg hd] at h1
      omega
  · exact sigLoop_returns evs ⟨false, 0⟩

/-! ## Claim C7 -/

/-- Claim C7: whenever the response stream is non-nil it is drained exactly
once and closed exactly once, the drain immediately preceding the close, on
the success and error paths alike — all before `listOnce` returns; on success
the latency forwarded to the CSV sink spans the request plus the full drain of
the payload, and a value is forwarded exactly when a CSV writer is
configured. -/
theorem listOnce_drains_and_closes (env : ListOnceEnv) (c : Counters) :
    drains (listOnce env c).2.1 = (if env.rcPresent then 1 else 0) ∧
    closes (listOnce env c).2.1 = (if env.rcPresent then 1 else 0) ∧
    (env.rcPresent = true →
      [WorkerAction.drainResponse, WorkerAction.closeResponse] <:+:
        (listOnce env c).2.1) ∧
    csvWrites (listOnce env c).2.1 =
      (if env.errPresent then []
       else if env.csvConfigured then
         [env.requestDurNs + (if env.rcPresent then env.drainDurNs else 0)]
       else []) := by
  obtain ⟨rc, err, rq, dr, csv⟩ := env
  cases rc <;> cases err <;> cases csv <;>
    refine ⟨rfl, rfl, ?_, rfl⟩ <;>
    first
      | exact fun h => Bool.noConfusion h
      | exact fun _ => ⟨[WorkerAction.incTotal, WorkerAction.issueRequest], _, rfl⟩

/-- Witness for claim C7: a successful call with a non-nil stream, a 7ns
request, a 5ns drain and a configured CSV writer. -/
theorem listOnce_drains_and_closes_witness :
    drains (listOnce ⟨true, false, 7, 5, true⟩ ⟨0, 0⟩).2.1 = 1 ∧
    closes (listOnce ⟨true, false, 7, 5, true⟩ ⟨0, 0⟩).2.1 = 1 ∧
    [WorkerAction.drainResponse, WorkerAction.closeResponse] <:+:
      (listOnce ⟨true, false, 7, 5, true⟩ ⟨0, 0⟩).2.1 ∧
    csvWrites (listOnce ⟨true, false, 7, 5, true⟩ ⟨0, 0⟩).2.1 = [12] :=
  ⟨(listOnce_drains_and_closes ⟨true, false, 7, 5, true⟩ ⟨0, 0⟩).1,
   (listOnce_drains_and_closes ⟨true, false, 7, 5, true⟩ ⟨0, 0⟩).2.1,
   (listOnce_drains_and_closes ⟨true, false, 7, 5, true⟩ ⟨0, 0⟩).2.2.1 rfl,
   (listOnce_drains_and_closes ⟨true, false, 7, 5, true⟩ ⟨0, 0⟩).2.2.2⟩

/-! ## Claim C8 -/

/-- Claim C8: over any non-empty client pool and any cancellation schedule,
the run completes without panicking and the worker launched at tick `k` holds
the client at pool index `k % n` — round-robin over `len(clients)`; with a
pool of length 1 every worker holds client 0, and such a run is equally
valid. -/
theorem round_robin_client_assignment (qps : ℚ) (D n : Nat) (c : Option Nat)
    (hI : 0 < tickIntervalNs qps) (hn : 0 < n) :
    ∃ l b w, listObjects qps D n c = .completed l b w ∧
      (∀ k, ∀ hk : k < l.length, l[k] = (k, k % n)) ∧
      (n = 1 → ∀ p ∈ l, p.2 = 0) := by
  obtain ⟨m, b, w, hm⟩ := listObjects_shape qps D n c hI (by omega)
  refine ⟨_, b, w, hm, ?_, ?_⟩
  · intro k hk
    simp only [List.getElem_map, List.getElem_range']
    norm_num
  · rintro rfl p hp
    simp only [List.mem_map] at hp
    obtain ⟨t, ht, rfl⟩ := hp
    exact Nat.mod_one t

/-- Witness for claim C8: qps 2, duration 2s, pool of 3, no cancellation. -/
theorem round_robin_client_assignment_witness :
    ∃ l b w, listObjects 2 2000000000 3 none = .completed l b w ∧
      (∀ k, ∀ hk : k < l.length, l[k] = (k, k % 3)) ∧
      (3 = 1 → ∀ p ∈ l, p.2 = 0) :=
  round_robin_client_assignment 2 2000000000 3 none
    (by rw [tickIntervalNs_two]; decide) (by decide)

/-! ## Claim C9 -/

/-- One admissible increment preserves the counter-trace invariant. -/
theorem counterStep_inv {s s' : CounterTraceState} {e : CounterEvent}
    (h : counterStep s e = some s') (hs : ctsInv s) : ctsInv s' := by
  obtain ⟨hsub, hnds, hndf⟩ := hs
  cases e with
  | incTotal w =>
    simp only [counterStep] at h
    by_cases hw : w ∈ s.started
    · rw [if_pos hw] at h
      exact Option.noConfusion h
    · rw [if_neg hw] at h
      injection h with h'
      subst h'
      refine ⟨?_, List.nodup_cons.2 ⟨hw, hnds⟩, hndf⟩
      exact fun x hx => List.mem_cons_of_mem _ (hsub hx)
  | incFailed w =>
    simp only [counterStep] at h
    by_cases hw : w ∈ s.started ∧ w ∉ s.failed
    · rw [if_pos hw] at h
      injection h with h'
      subst h'
      refine ⟨?_, hnds, List.nodup_cons.2 ⟨hw.2, hndf⟩⟩
      intro x hx
      rcases List.mem_cons.1 hx with rfl | hx'
      · exact hw.1
      · exact hsub hx'
    · rw [if_neg hw] at h
      exact Option.noConfusion h

/-- Running an admissible interleaving preserves the counter-trace
invariant. -/
theorem runCounterTraceFrom_inv :
    ∀ (tr : List CounterEvent) (s s' : CounterTraceState),
      runCounterTraceFrom s tr = some s' → ctsInv s → ctsInv s' := by
  intro tr
  induction tr with
  | nil =>
    intro s s' h hs
    injection h with h'
    subst h'
    exact hs
  | cons e rest ih =>
    intro s s' h hs
    unfold runCounterTraceFrom at h
    cases hstep : counterStep s e with
    | none =>
      rw [hstep] at h
      exact Option.noConfusion h
    | some s2 =>
      rw [hstep] at h
      exact ih s2 s' h (counterStep_inv hstep hs)

/-- A prefix of an admissible interleaving is admissible. -/
theorem runCounterTraceFrom_prefix :
    ∀ (p q : List CounterEvent) (s s' : CounterTraceState),
      runCounterTraceFrom s (p ++ q) = some s' →
      ∃ s2, runCounterTraceFrom s p = some s2 := by
  intro p
  induction p with
  | nil => exact fun q s s' h => ⟨s, rfl⟩
  | cons e rest ih =>
    intro q s s' h
    rw [List.cons_append] at h
    unfold runCounterTraceFrom at h ⊢
    cases hstep : counterStep s e with
    | none =>
      rw [hstep] at h
      exact Option.noConfusion h
    | some s2 =>
      rw [hstep] at h
      exact ih q s2 s' h

/-- The counter increments one `listOnce` call contributes, in program order:
its `total` increment first, then its `failed` increment exactly on the error
path — the per-worker discipline `counterStep` admits. -/
theorem listOnce_counterEvents (w : Nat) (env : ListOnceEnv) (c : Counters) :
    counterEventsOf w (listOnce env c).2.1 =
      (if env.errPresent then [.incTotal w, .incFailed w] else [.incTotal w]) := by
  obtain ⟨rc, err, rq, dr, csv⟩ := env
  cases rc <;> cases err <;> cases csv <;> rfl

/-- Claim C9: in every admissible interleaving of worker counter increments
(each worker increments `total` at most once, and `failed` at most once and
only after its own `total` increment — exactly the discipline `listOnce`
follows, see `listOnce_counterEvents`), the failed count never exceeds the
total count: at the end of the interleaving and at every intermediate point
(every prefix). -/
theorem failed_le_total_invariant (tr : List CounterEvent)
    (s : CounterTraceState) (h : runCounterTrace tr = some s) :
    s.failed.length ≤ s.started.length ∧
    ∀ p, p <+: tr → ∃ s', runCounterTrace p = some s' ∧
      s'.failed.length ≤ s'.started.length := by
  have base : ctsInv ⟨[], []⟩ :=
    ⟨fun x hx => absurd hx (List.not_mem_nil x), List.nodup_nil, List.nodup_nil⟩
  have main : ∀ (tr' : List CounterEvent) (s' : CounterTraceState),
      runCounterTrace tr' = some s' → s'.failed.length ≤ s'.started.length := by
    intro tr' s' h'
    obtain ⟨hsub, hnds, hndf⟩ := runCounterTraceFrom_inv tr' ⟨[], []⟩ s' h' base
    exact (hndf.subperm hsub).length_le
  refine ⟨main tr s h, fun p hp => ?_⟩
  obtain ⟨q, rfl⟩ := hp
  obtain ⟨s2, hs2⟩ := runCounterTraceFrom_prefix p q ⟨[], []⟩ s h
  exact ⟨s2, hs2, main p s2 hs2⟩

/-- Witness for claim C9: worker 0 and worker 1 increment `total`, then worker
0 fails; every prefix satisfies failed ≤ total. -/
theorem failed_le_total_invariant_witness :
    runCounterTrace [.incTotal 0, .incTotal 1, .incFailed 0] =
      some ⟨[1, 0], [0]⟩ ∧
    ((1 : Nat) ≤ 2 ∧
      ∀ p, p <+: [CounterEvent.incTotal 0, .incTotal 1, .incFailed 0] →
        ∃ s', runCounterTrace p = some s' ∧
          s'.failed.length ≤ s'.started.length) := by
  have h : runCounterTrace [.incTotal 0, .incTotal 1, .incFailed 0] =
      some ⟨[1, 0], [0]⟩ := by decide
  have h2 := failed_le_total_invariant [.incTotal 0, .incTotal 1, .incFailed 0]
    ⟨[1, 0], [0]⟩ h
  exact ⟨h, h2.1, h2.2⟩

/-! ## Claim C10 -/

/-- Claim C10: whenever `listCommand` returns, it returns nil — its body ends
in its single `return nil` — so the error branch of the list command's Run
closure, which would log the error and exit the process with status 1, is
unreachable via `listCommand`'s return value. -/
theorem listCommand_returns_nil (qps : ℚ) (D n : Nat) (c : Option Nat)
    (r : Option String) (h : listCommandReturn qps D n c = some r) :
    r = none ∧ listCmdRunExit r = none := by
  unfold listCommandReturn at h
  split at h
  · exact Option.noConfusion h
  · exact Option.noConfusion h
  · injection h with h'
    subst h'
    exact ⟨rfl, rfl⟩

/-- Witness for claim C10: a concrete run after which `listCommand` returns
nil and the exit-1 branch is not taken. -/
theorem listCommand_returns_nil_witness :
    listCommandReturn 1 0 1 none = some none ∧
    ((none : Option String) = none ∧ listCmdRunExit none = none) := by
  have h : listCommandReturn 1 0 1 none = some none := by
    rw [listCommandReturn, listObjects, tickIntervalNs_one]
    decide
  exact ⟨h, listCommand_returns_nil 1 0 1 none none h⟩

end KubeStress
